import Mathlib

/-!
Verification of pg_meter (a TPC-C-style benchmark driver for PostgreSQL)
against its natural-language specification.

The Rust sources are shallowly embedded: machine integers become Nat/Int
(with explicit `% 2 ^ w` where wrap-around matters), `f64`/`f32` values that
only ever hold exactly representable small quantities are modelled as
rationals, hash/btree maps become association lists, and the long-lived
data-collector thread becomes an explicit state machine driven by a list of
messages.
-/

namespace PgMeter

/-! ### src/executor/txmessage.rs -/

/-- Kinds of messages flowing from the benchmark clients to the data
collector, mirroring `enum TXMessageKind` in txmessage.rs. -/
inductive TXMessageKind where
  | DEFAULT
  | COMMITTED
  | ERROR
  | TERMINATE
  | ENDOFRAMPUP
deriving DecidableEq

/-- Mirror of `struct TXMessage` (txmessage.rs). `tx_duration_us : u128` and
`client_id : u32` become `Nat`; `tx_timestamp : i64` becomes `Int`. -/
structure TXMessage where
  kind : TXMessageKind
  tx_id : Nat
  client_id : Nat
  tx_duration_us : Nat
  tx_timestamp : Int
  error : String
deriving DecidableEq

/-- Mirror of `TXMessage::default()`. -/
def TXMessage.default : TXMessage :=
  ⟨TXMessageKind.DEFAULT, 0, 0, 0, 0, ""⟩

/-- Mirror of `TXMessage::terminate_data_collector()`. -/
def TXMessage.terminateDataCollector : TXMessage :=
  { TXMessage.default with kind := TXMessageKind.TERMINATE }

/-- Mirror of `TXMessage::error(tx_id, client_id, tx_timestamp, error)`. -/
def TXMessage.mkError (txId clientId : Nat) (txTimestamp : Int) (err : String) : TXMessage :=
  { TXMessage.default with
      kind := TXMessageKind.ERROR, tx_id := txId, client_id := clientId,
      tx_timestamp := txTimestamp, error := err }

/-- Mirror of `TXMessage::committed(tx_id, client_id, tx_timestamp, tx_duration_us)`. -/
def TXMessage.committed (txId clientId : Nat) (txTimestamp : Int) (txDurationUs : Nat) : TXMessage :=
  { TXMessage.default with
      kind := TXMessageKind.COMMITTED, tx_id := txId, client_id := clientId,
      tx_timestamp := txTimestamp, tx_duration_us := txDurationUs }

/-- Mirror of `TXMessage::end_of_rampup()`. -/
def TXMessage.endOfRampup : TXMessage :=
  { TXMessage.default with kind := TXMessageKind.ENDOFRAMPUP }

/-! ### src/executor/benchmark.rs -/

/-- Mirror of `struct Counter` (benchmark.rs): `n_commits : u64`,
`n_total : u64` become `Nat`; `total_duration_ms : f64` only ever accumulates
exact millisecond values here, modelled as a rational. -/
structure Counter where
  n_commits : Nat
  n_total : Nat
  total_duration_ms : ℚ
deriving DecidableEq

/-! ### src/executor.rs, `start_data_collector`

The data-collector thread owns two buffered log files, a counter map
`HashMap<u16, Counter>`, an ordered map of seen `client_id`s, the ramp-up
flag and the running client counter `n_client`.  We model the files by the
list of lines written, the `HashMap` by an association list, and the
`BTreeMap<u32, bool>` of seen clients by the list of its keys.
-/

/-- A line written by the data collector: `txLine` goes to transaction.log
(`<timestamp> <ordinal> <tx_id> <duration_ms>`), `errLine` goes to error.log
(`<timestamp> <ordinal> <tx_id> <error>`). -/
inductive LogLine where
  | txLine (timestamp : Int) (ordinal : Nat) (txId : Nat) (durationMs : ℚ)
  | errLine (timestamp : Int) (ordinal : Nat) (txId : Nat) (err : String)
deriving DecidableEq

/-- The client-ordinal field actually written in a log line (the second
space-separated field of both files). -/
def LogLine.ordinal : LogLine → Nat
  | .txLine _ o _ _ => o
  | .errLine _ o _ _ => o

/-- True for lines written to transaction.log. -/
def LogLine.isTxLine : LogLine → Bool
  | .txLine _ _ _ _ => true
  | .errLine _ _ _ _ => false

/-- Mutable state of the data-collector loop in `start_data_collector`. -/
structure CollectorState where
  /-- `counters : HashMap<u16, Counter>` as an association list. -/
  counters : List (Nat × Counter)
  /-- keys of `client_ids : BTreeMap<u32, bool>` (the values are always `true`). -/
  client_ids : List Nat
  /-- `ramping_up : bool`, initially `true`. -/
  ramping_up : Bool
  /-- `n_client : u32`, the running count of distinct clients seen. -/
  n_client : Nat
deriving DecidableEq

/-- The collector state right after initialization (executor.rs lines
264-272). -/
def initialCollectorState : CollectorState :=
  ⟨[], [], true, 0⟩

/-- The client-tracking block shared by the COMMITTED and ERROR arms
(executor.rs lines 284-292 and 318-326): if `client_id` was not seen,
record it and bump the running counter; otherwise leave the counter as it
is.  Returns the new seen-set and the value assigned to `n_client`. -/
def registerClient (clientIds : List Nat) (nClient : Nat) (clientId : Nat) :
    List Nat × Nat :=
  if clientId ∈ clientIds then (clientIds, nClient)
  else (clientId :: clientIds, nClient + 1)

/-- `counters.get_mut(&tx_id)`-then-update-or-`insert` (executor.rs lines
296-305 and 328-335) on the association list: apply `f` to the entry for
`txId` when present, otherwise insert `dflt`. -/
def countersApply (cs : List (Nat × Counter)) (txId : Nat) (f : Counter → Counter)
    (dflt : Counter) : List (Nat × Counter) :=
  match cs with
  | [] => [(txId, dflt)]
  | (k, c) :: rest =>
      if k = txId then (k, f c) :: rest
      else (k, c) :: countersApply rest txId f dflt

/-- Lookup in the counter map. -/
def countersGet (cs : List (Nat × Counter)) (txId : Nat) : Option Counter :=
  match cs with
  | [] => none
  | (k, c) :: rest => if k = txId then some c else countersGet rest txId

/-- The counter stored for `txId`, defaulting to an all-zero counter when the
transaction id is absent from the map. -/
def counterAt (s : CollectorState) (txId : Nat) : Counter :=
  (countersGet s.counters txId).getD ⟨0, 0, 0⟩

/-- One iteration of the collector loop body for one received message
(executor.rs lines 277-353).  Returns the new state and the log line written
(if any).  The TERMINATE arm only breaks the loop, which is handled by
`runCollector`; here it leaves the state unchanged and writes nothing. -/
def collectorStep (s : CollectorState) (m : TXMessage) : CollectorState × Option LogLine :=
  match m.kind with
  | .TERMINATE => (s, none)
  | .DEFAULT => (s, none)
  | .ENDOFRAMPUP => ({ s with ramping_up := false }, none)
  | .COMMITTED =>
      let reg := registerClient s.client_ids s.n_client m.client_id
      -- `let duration_ms = msg.tx_duration_us as f64 / 1000 as f64`
      let durationMs : ℚ := (m.tx_duration_us : ℚ) / 1000
      -- counters move only once the ramp-up stage is over
      let counters :=
        if s.ramping_up then s.counters
        else countersApply s.counters m.tx_id
          (fun c => ⟨c.n_commits + 1, c.n_total + 1, c.total_duration_ms + durationMs⟩)
          ⟨1, 1, durationMs⟩
      (⟨counters, reg.1, s.ramping_up, reg.2⟩,
       some (.txLine m.tx_timestamp reg.2 m.tx_id durationMs))
  | .ERROR =>
      let reg := registerClient s.client_ids s.n_client m.client_id
      let counters :=
        if s.ramping_up then s.counters
        else countersApply s.counters m.tx_id
          (fun c => ⟨c.n_commits, c.n_total + 1, c.total_duration_ms⟩)
          ⟨0, 1, 0⟩
      (⟨counters, reg.1, s.ramping_up, reg.2⟩,
       some (.errLine m.tx_timestamp reg.2 m.tx_id m.error))

/-- The collector loop run over a finite message sequence: processes messages
in order, stopping at the first TERMINATE (which publishes the counters,
i.e. returns the state).  Returns the final state and all lines written. -/
def runCollector (s : CollectorState) : List TXMessage → CollectorState × List LogLine
  | [] => (s, [])
  | m :: rest =>
      if m.kind = .TERMINATE then (s, [])
      else
        let step := collectorStep s m
        let res := runCollector step.1 rest
        (res.1, step.2.toList ++ res.2)

/-! Basic lemmas about the counter map. -/

theorem countersGet_apply_self (cs : List (Nat × Counter)) (t : Nat)
    (f : Counter → Counter) (d : Counter) :
    countersGet (countersApply cs t f d) t = some (((countersGet cs t).map f).getD d) := by
  induction cs with
  | nil => simp [countersApply, countersGet]
  | cons p rest ih =>
      obtain ⟨k, c⟩ := p
      by_cases hk : k = t
      · simp [countersApply, countersGet, hk]
      · simp [countersApply, countersGet, hk, ih]

theorem countersGet_apply_ne (cs : List (Nat × Counter)) (t u : Nat)
    (f : Counter → Counter) (d : Counter) (h : u ≠ t) :
    countersGet (countersApply cs t f d) u = countersGet cs u := by
  induction cs with
  | nil => simp [countersApply, countersGet, Ne.symm h]
  | cons p rest ih =>
      obtain ⟨k, c⟩ := p
      by_cases hk : k = t
      · subst hk
        simp [countersApply, countersGet, Ne.symm h]
      · by_cases hu : k = u <;> simp [countersApply, countersGet, hk, hu, ih, h]

theorem counterAt_step_ne (s : CollectorState) (m : TXMessage) (t : Nat)
    (h : t ≠ m.tx_id) : counterAt (collectorStep s m).1 t = counterAt s t := by
  cases hk : m.kind <;>
    simp [collectorStep, hk, counterAt, countersGet_apply_ne _ _ _ _ _ h]
  · split <;> simp [countersGet_apply_ne _ _ _ _ _ h]
  · split <;> simp [countersGet_apply_ne _ _ _ _ _ h]

/-- C2: a COMMITTED or ERROR message received while still ramping up leaves
the counter map completely unchanged yet still produces its record line
(COMMITTED to transaction.log, ERROR to error.log with the message's
timestamp, transaction id and duration/error payload); once END_OF_RAMPUP has
been observed, a COMMITTED message bumps `n_commits` and `n_total` and adds
the duration in milliseconds, an ERROR message bumps `n_total` only, and in
either case counters of other transaction ids are untouched. -/
theorem rampup_gating (s : CollectorState) (m : TXMessage)
    (hk : m.kind = TXMessageKind.COMMITTED ∨ m.kind = TXMessageKind.ERROR) :
    (s.ramping_up = true → (collectorStep s m).1.counters = s.counters) ∧
    (m.kind = TXMessageKind.COMMITTED →
      ∃ ord, (collectorStep s m).2 =
        some (LogLine.txLine m.tx_timestamp ord m.tx_id ((m.tx_duration_us : ℚ) / 1000))) ∧
    (m.kind = TXMessageKind.ERROR →
      ∃ ord, (collectorStep s m).2 =
        some (LogLine.errLine m.tx_timestamp ord m.tx_id m.error)) ∧
    (s.ramping_up = false → m.kind = TXMessageKind.COMMITTED →
      counterAt (collectorStep s m).1 m.tx_id =
        ⟨(counterAt s m.tx_id).n_commits + 1, (counterAt s m.tx_id).n_total + 1,
         (counterAt s m.tx_id).total_duration_ms + (m.tx_duration_us : ℚ) / 1000⟩) ∧
    (s.ramping_up = false → m.kind = TXMessageKind.ERROR →
      counterAt (collectorStep s m).1 m.tx_id =
        ⟨(counterAt s m.tx_id).n_commits, (counterAt s m.tx_id).n_total + 1,
         (counterAt s m.tx_id).total_duration_ms⟩) ∧
    (∀ t, t ≠ m.tx_id → counterAt (collectorStep s m).1 t = counterAt s t) := by
  refine ⟨?_, ?_, ?_, ?_, ?_, fun t ht => counterAt_step_ne s m t ht⟩
  · intro hr
    rcases hk with hk | hk <;> simp [collectorStep, hk, hr]
  · intro hc
    refine ⟨(registerClient s.client_ids s.n_client m.client_id).2, ?_⟩
    simp [collectorStep, hc]
  · intro hc
    refine ⟨(registerClient s.client_ids s.n_client m.client_id).2, ?_⟩
    simp [collectorStep, hc]
  · intro hr hc
    simp only [collectorStep, hc, hr, counterAt, if_false, Bool.false_eq_true,
      countersGet_apply_self]
    cases hg : countersGet s.counters m.tx_id <;> simp [hg]
  · intro hr he
    simp only [collectorStep, he, hr, counterAt, if_false, Bool.false_eq_true,
      countersGet_apply_self]
    cases hg : countersGet s.counters m.tx_id <;> simp [hg]

/-- Witness for `rampup_gating` at a concrete ramp-up-stage COMMITTED
message. -/
theorem rampup_gating_witness :
    ((TXMessage.committed 2 1 5 1500).kind = TXMessageKind.COMMITTED ∨
      (TXMessage.committed 2 1 5 1500).kind = TXMessageKind.ERROR) ∧
    (collectorStep initialCollectorState (TXMessage.committed 2 1 5 1500)).1.counters =
      initialCollectorState.counters :=
  ⟨Or.inl rfl,
   (rampup_gating initialCollectorState (TXMessage.committed 2 1 5 1500) (Or.inl rfl)).1 rfl⟩

/-! ### C3: the counter invariant -/

/-- The invariant on the counter map: every transaction id present maps to a
counter with `n_commits ≤ n_total`. -/
def CounterInv (s : CollectorState) : Prop :=
  ∀ p ∈ s.counters, (Prod.snd p).n_commits ≤ (Prod.snd p).n_total

theorem counterInv_apply (cs : List (Nat × Counter)) (t : Nat)
    (f : Counter → Counter) (d : Counter)
    (hf : ∀ c : Counter, c.n_commits ≤ c.n_total → (f c).n_commits ≤ (f c).n_total)
    (hd : d.n_commits ≤ d.n_total)
    (h : ∀ p ∈ cs, (Prod.snd p).n_commits ≤ (Prod.snd p).n_total) :
    ∀ p ∈ countersApply cs t f d, (Prod.snd p).n_commits ≤ (Prod.snd p).n_total := by
  induction cs with
  | nil => simpa [countersApply] using hd
  | cons p rest ih =>
      obtain ⟨k, c⟩ := p
      by_cases hk : k = t
      · intro q hq
        rcases (by simpa [countersApply, hk] using hq : q = (k, f c) ∨ q ∈ rest) with h1 | h1
        · subst h1
          exact hf c (h (k, c) (List.mem_cons_self _ _))
        · exact h q (List.mem_cons_of_mem _ h1)
      · intro q hq
        rcases (by simpa [countersApply, hk] using hq :
            q = (k, c) ∨ q ∈ countersApply rest t f d) with h1 | h1
        · subst h1
          exact h (k, c) (List.mem_cons_self _ _)
        · exact ih (fun p hp => h p (List.mem_cons_of_mem _ hp)) q h1

theorem counterInv_step (s : CollectorState) (m : TXMessage)
    (h : CounterInv s) : CounterInv (collectorStep s m).1 := by
  cases hk : m.kind <;> simp only [collectorStep, hk]
  · exact h
  · split
    · exact h
    · exact counterInv_apply _ _ _ _ (fun c hc => by simpa using Nat.succ_le_succ hc)
        (by simp) h
  · split
    · exact h
    · exact counterInv_apply _ _ _ _ (fun c hc => by simpa using Nat.le_succ_of_le hc)
        (by simp) h
  · exact h
  · exact h

theorem counterInv_run (msgs : List TXMessage) (s : CollectorState)
    (h : CounterInv s) : CounterInv (runCollector s msgs).1 := by
  induction msgs generalizing s with
  | nil => exact h
  | cons m rest ih =>
      by_cases ht : m.kind = TXMessageKind.TERMINATE
      · simpa [runCollector, ht] using h
      · simpa [runCollector, ht] using ih _ (counterInv_step s m h)

/-- C3: starting from the empty counter map, any message sequence leaves the
collector in a state where every transaction id in the map satisfies
`n_commits ≤ n_total`; moreover a single collector step changes the
accumulated duration of transaction id `t` only if the message processed is
a COMMITTED message for `t`. -/
theorem counter_invariant :
    (∀ msgs : List TXMessage, CounterInv (runCollector initialCollectorState msgs).1) ∧
    (∀ (s : CollectorState) (m : TXMessage) (t : Nat),
      (counterAt (collectorStep s m).1 t).total_duration_ms ≠
        (counterAt s t).total_duration_ms →
      m.kind = TXMessageKind.COMMITTED ∧ m.tx_id = t) := by
  constructor
  · intro msgs
    exact counterInv_run msgs _ (by intro p hp; simp [initialCollectorState] at hp)
  · intro s m t hne
    by_cases htx : t = m.tx_id
    · subst htx
      cases hk : m.kind
      · exact absurd (by simp [collectorStep, hk, counterAt]) hne
      · exact ⟨rfl, rfl⟩
      · exfalso
        apply hne
        simp only [collectorStep, hk, counterAt]
        split
        · rfl
        · simp only [countersGet_apply_self]
          cases hg : countersGet s.counters m.tx_id <;> simp [hg]
      · exact absurd (by simp [collectorStep, hk, counterAt]) hne
      · exact absurd (by simp [collectorStep, hk, counterAt]) hne
    · exact absurd (congrArg Counter.total_duration_ms (counterAt_step_ne s m t htx)) hne

/-- Witness for `counter_invariant` at a concrete steady-state COMMITTED
message that does change the accumulated duration. -/
theorem counter_invariant_witness :
    ((counterAt (collectorStep ⟨[], [], false, 0⟩ (TXMessage.committed 2 1 0 1000)).1 2).total_duration_ms ≠
      (counterAt (⟨[], [], false, 0⟩ : CollectorState) 2).total_duration_ms) ∧
    ((TXMessage.committed 2 1 0 1000).kind = TXMessageKind.COMMITTED ∧
      (TXMessage.committed 2 1 0 1000).tx_id = 2) :=
  ⟨by norm_num [collectorStep, counterAt, countersGet, countersApply, registerClient,
      TXMessage.committed, TXMessage.default],
   counter_invariant.2 ⟨[], [], false, 0⟩ (TXMessage.committed 2 1 0 1000) 2
    (by norm_num [collectorStep, counterAt, countersGet, countersApply, registerClient,
      TXMessage.committed, TXMessage.default])⟩

/-! ### C1: client ordinals -/

/-- Well-formedness of the client-tracking state: the running counter
`n_client` equals the number of distinct clients seen, and the seen clients
are pairwise distinct. -/
def CollectorWF (s : CollectorState) : Prop :=
  s.n_client = s.client_ids.length ∧ s.client_ids.Nodup

theorem collectorWF_initial : CollectorWF initialCollectorState :=
  ⟨rfl, List.nodup_nil⟩

theorem collectorStep_wf (s : CollectorState) (m : TXMessage) (h : CollectorWF s) :
    CollectorWF (collectorStep s m).1 := by
  obtain ⟨h1, h2⟩ := h
  cases hk : m.kind <;> simp only [collectorStep, hk]
  · exact ⟨h1, h2⟩
  · by_cases hmem : m.client_id ∈ s.client_ids
    · simpa [CollectorWF, registerClient, hmem] using ⟨h1, h2⟩
    · exact ⟨by simp [registerClient, hmem, h1], by simp [registerClient, hmem, h2, hmem]⟩
  · by_cases hmem : m.client_id ∈ s.client_ids
    · simpa [CollectorWF, registerClient, hmem] using ⟨h1, h2⟩
    · exact ⟨by simp [registerClient, hmem, h1], by simp [registerClient, hmem, h2, hmem]⟩
  · exact ⟨h1, h2⟩
  · exact ⟨h1, h2⟩

theorem collectorStep_nClient_le (s : CollectorState) (m : TXMessage) :
    s.n_client ≤ (collectorStep s m).1.n_client := by
  cases hk : m.kind <;> simp only [collectorStep, hk]
  · exact Nat.le_refl _
  · by_cases hmem : m.client_id ∈ s.client_ids <;>
      simp [registerClient, hmem]
  · by_cases hmem : m.client_id ∈ s.client_ids <;>
      simp [registerClient, hmem]
  · exact Nat.le_refl _
  · exact Nat.le_refl _

theorem runCollector_nClient_le (msgs : List TXMessage) (s : CollectorState) :
    s.n_client ≤ (runCollector s msgs).1.n_client := by
  induction msgs generalizing s with
  | nil => exact Nat.le_refl _
  | cons m rest ih =>
      by_cases ht : m.kind = TXMessageKind.TERMINATE
      · simp [runCollector, ht]
      · simpa [runCollector, ht] using
          Nat.le_trans (collectorStep_nClient_le s m) (ih (collectorStep s m).1)

theorem collectorStep_write_ordinal (s : CollectorState) (m : TXMessage) (l : LogLine)
    (h : (collectorStep s m).2 = some l) : l.ordinal = (collectorStep s m).1.n_client := by
  cases hk : m.kind <;> simp only [collectorStep, hk] at h ⊢
  · exact absurd h (by simp)
  · obtain rfl : LogLine.txLine m.tx_timestamp
        (registerClient s.client_ids s.n_client m.client_id).2 m.tx_id
        ((m.tx_duration_us : ℚ) / 1000) = l := by simpa using h
    rfl
  · obtain rfl : LogLine.errLine m.tx_timestamp
        (registerClient s.client_ids s.n_client m.client_id).2 m.tx_id m.error = l := by
      simpa using h
    rfl
  · exact absurd h (by simp)
  · exact absurd h (by simp)

theorem collectorStep_ordinal_pos (s : CollectorState) (m : TXMessage) (l : LogLine)
    (hwf : CollectorWF s) (h : (collectorStep s m).2 = some l) : 1 ≤ l.ordinal := by
  have hreg : 1 ≤ (registerClient s.client_ids s.n_client m.client_id).2 := by
    by_cases hmem : m.client_id ∈ s.client_ids
    · have hpos : 0 < s.client_ids.length := List.length_pos.mpr (by
        intro hnil
        simp [hnil] at hmem)
      simpa [registerClient, hmem, hwf.1] using hpos
    · simp [registerClient, hmem]
  cases hk : m.kind <;> simp only [collectorStep, hk] at h
  · exact absurd h (by simp)
  · obtain rfl : LogLine.txLine m.tx_timestamp
        (registerClient s.client_ids s.n_client m.client_id).2 m.tx_id
        ((m.tx_duration_us : ℚ) / 1000) = l := by simpa using h
    exact hreg
  · obtain rfl : LogLine.errLine m.tx_timestamp
        (registerClient s.client_ids s.n_client m.client_id).2 m.tx_id m.error = l := by
      simpa using h
    exact hreg
  · exact absurd h (by simp)
  · exact absurd h (by simp)

theorem collectorStep_nClient_change (s : CollectorState) (m : TXMessage)
    (h : (collectorStep s m).1.n_client ≠ s.n_client) :
    ∃ l, (collectorStep s m).2 = some l ∧ l.ordinal = s.n_client + 1 ∧
      (collectorStep s m).1.n_client = s.n_client + 1 := by
  cases hk : m.kind <;> simp only [collectorStep, hk] at h ⊢
  · exact absurd rfl h
  · by_cases hmem : m.client_id ∈ s.client_ids
    · exact absurd (by simp [registerClient, hmem]) h
    · exact ⟨_, rfl, by simp [registerClient, hmem, LogLine.ordinal],
        by simp [registerClient, hmem]⟩
  · by_cases hmem : m.client_id ∈ s.client_ids
    · exact absurd (by simp [registerClient, hmem]) h
    · exact ⟨_, rfl, by simp [registerClient, hmem, LogLine.ordinal],
        by simp [registerClient, hmem]⟩
  · exact absurd rfl h
  · exact absurd rfl h

theorem runCollector_ordinal_bounds (msgs : List TXMessage) :
    ∀ s : CollectorState, CollectorWF s →
      ∀ o ∈ (runCollector s msgs).2.map LogLine.ordinal,
        1 ≤ o ∧ o ≤ (runCollector s msgs).1.n_client := by
  induction msgs with
  | nil => intro s _ o ho; simp [runCollector] at ho
  | cons m rest ih =>
      intro s hwf o ho
      by_cases ht : m.kind = TXMessageKind.TERMINATE
      · simp [runCollector, ht] at ho
      · simp only [runCollector, ht, if_false] at ho ⊢
        rw [List.map_append, List.mem_append] at ho
        rcases ho with ho | ho
        · cases hstep : (collectorStep s m).2 with
          | none => simp [hstep] at ho
          | some l =>
              obtain rfl : o = l.ordinal := by simpa [hstep] using ho
              refine ⟨collectorStep_ordinal_pos s m l hwf hstep, ?_⟩
              rw [collectorStep_write_ordinal s m l hstep]
              exact runCollector_nClient_le rest (collectorStep s m).1
        · exact ih (collectorStep s m).1 (collectorStep_wf s m hwf) o ho

theorem runCollector_ordinal_cover (msgs : List TXMessage) :
    ∀ (s : CollectorState) (o : Nat), s.n_client < o →
      o ≤ (runCollector s msgs).1.n_client →
      o ∈ (runCollector s msgs).2.map LogLine.ordinal := by
  induction msgs with
  | nil =>
      intro s o h1 h2
      exfalso
      simp only [runCollector] at h2
      omega
  | cons m rest ih =>
      intro s o h1 h2
      by_cases ht : m.kind = TXMessageKind.TERMINATE
      · exfalso
        simp only [runCollector, ht, if_true] at h2
        omega
      · simp only [runCollector, ht, if_false] at h2 ⊢
        rw [List.map_append, List.mem_append]
        by_cases hch : (collectorStep s m).1.n_client = s.n_client
        · exact Or.inr (ih (collectorStep s m).1 o (hch ▸ h1) h2)
        · obtain ⟨l, hl, hord, hn⟩ := collectorStep_nClient_change s m hch
          by_cases ho : o = s.n_client + 1
          · exact Or.inl (by simp [hl, hord, ho])
          · refine Or.inr (ih (collectorStep s m).1 o ?_ h2)
            rw [hn]
            omega

theorem runCollector_wf (msgs : List TXMessage) :
    ∀ s : CollectorState, CollectorWF s → CollectorWF (runCollector s msgs).1 := by
  induction msgs with
  | nil => intro s h; exact h
  | cons m rest ih =>
      intro s h
      by_cases ht : m.kind = TXMessageKind.TERMINATE
      · simpa [runCollector, ht] using h
      · simpa [runCollector, ht] using ih (collectorStep s m).1 (collectorStep_wf s m h)

/-- The message sequence refuting the claim: three COMMITTED messages from
clients 7, 9 and 7 again. -/
def clientOrdinalExampleMsgs : List TXMessage :=
  [TXMessage.committed 1 7 0 0, TXMessage.committed 1 9 0 0, TXMessage.committed 1 7 0 0]

/-- C1 counterexample: the first and third records come from the same
client_id 7, yet they carry the ordinals 1 and 2 — the collector writes the
current value of the running counter `n_client` for an already-seen client,
not the ordinal assigned to that client on first sight, so two records of
one client need not carry the same ordinal. -/
theorem clientOrdinal_counterexample :
    clientOrdinalExampleMsgs.map TXMessage.client_id = [7, 9, 7] ∧
    (runCollector initialCollectorState clientOrdinalExampleMsgs).2.map LogLine.ordinal =
      [1, 2, 2] := by
  constructor
  · rfl
  · rfl

/-- C1 amended: the ordinal field written with each record equals the number
of distinct client_ids seen so far (the running counter after registering
the record's client): a first-seen client's record carries its dense
first-sight ordinal (the previous distinct-client count plus one), while a
record of an already-seen client carries the current distinct-client count —
not necessarily that client's own first-sight ordinal.  The set of ordinals
ever written is still a contiguous prefix {1, ..., N} of the positive
integers, where N is the final distinct-client count. -/
theorem clientOrdinal_amended :
    (∀ msgs : List TXMessage,
      ((runCollector initialCollectorState msgs).2.map LogLine.ordinal).toFinset =
        Finset.Icc 1 (runCollector initialCollectorState msgs).1.n_client) ∧
    (∀ msgs : List TXMessage, CollectorWF (runCollector initialCollectorState msgs).1) ∧
    (∀ (s : CollectorState) (m : TXMessage), CollectorWF s →
      m.kind = TXMessageKind.COMMITTED ∨ m.kind = TXMessageKind.ERROR →
      ((collectorStep s m).2).map LogLine.ordinal =
        some (if m.client_id ∈ s.client_ids then s.n_client else s.client_ids.length + 1)) := by
  refine ⟨?_, ?_, ?_⟩
  · intro msgs
    ext o
    simp only [List.mem_toFinset, Finset.mem_Icc]
    constructor
    · intro ho
      exact runCollector_ordinal_bounds msgs initialCollectorState collectorWF_initial o ho
    · intro ⟨h1, h2⟩
      exact runCollector_ordinal_cover msgs initialCollectorState o h1 h2
  · intro msgs
    exact runCollector_wf msgs initialCollectorState collectorWF_initial
  · intro s m hwf hk
    rcases hk with hk | hk <;> by_cases hmem : m.client_id ∈ s.client_ids <;>
      simp [collectorStep, hk, registerClient, hmem, LogLine.ordinal, hwf.1]

/-- Witness for `clientOrdinal_amended` at a concrete first-seen COMMITTED
message. -/
theorem clientOrdinal_amended_witness :
    CollectorWF initialCollectorState ∧
    ((collectorStep initialCollectorState (TXMessage.committed 1 7 0 0)).2).map
      LogLine.ordinal = some 1 := by
  refine ⟨collectorWF_initial, ?_⟩
  have h := clientOrdinal_amended.2.2 initialCollectorState (TXMessage.committed 1 7 0 0)
    collectorWF_initial (Or.inl rfl)
  simpa [initialCollectorState, TXMessage.committed, TXMessage.default] using h

/-! ### src/executor.rs, `print_results` (C4)

`print_results` derives TPM and TPS from the per-run counters and
`duration_ms = Duration::from_millis(self.total_time_ms)` (executor.rs lines
655-704): the divisor is the WHOLE run time — set at the end of
`run_benchmark` (line 176) and thus including the ramp-up stage — truncated
to whole seconds by `Duration::as_secs()`.  The trailing `as u32` cast is
left out of the model; the claim concerns the value being cast, and the
`f64` arithmetic is modelled exactly over the rationals.
-/

/-- Mirror of the TPM computation in `print_results` (executor.rs line 699):
`counters.n_commits as f64 / duration_ms.as_secs() as f64 * 60.0`. -/
def summaryTpm (nCommits totalTimeMs : Nat) : ℚ :=
  (nCommits : ℚ) / ((totalTimeMs / 1000 : Nat) : ℚ) * 60

/-- Mirror of the TPS computation in `print_results` (executor.rs line 701):
`counters.n_commits as f64 / duration_ms.as_secs() as f64`. -/
def summaryTps (nCommits totalTimeMs : Nat) : ℚ :=
  (nCommits : ℚ) / ((totalTimeMs / 1000 : Nat) : ℚ)

/-- The claim's TPM formula, stated from the spec's words for comparison:
commits over the steady-state duration (total run time minus ramp-up time,
in seconds), times 60. -/
def specSteadyTpm (nCommits totalTimeMs rampupTimeMs : Nat) : ℚ :=
  (nCommits : ℚ) / (((totalTimeMs - rampupTimeMs) / 1000 : Nat) : ℚ) * 60

/-- The claim's TPS formula, stated from the spec's words for comparison. -/
def specSteadyTps (nCommits totalTimeMs rampupTimeMs : Nat) : ℚ :=
  (nCommits : ℚ) / (((totalTimeMs - rampupTimeMs) / 1000 : Nat) : ℚ)

/-- C4 counterexample: with 60 steady-state commits, a 2-second total run
and a 1-second ramp-up, the code prints tpm = 1800 and tps = 30 (dividing by
the whole 2-second run), while the claim's steady-state window of 1 second
demands tpm = 3600 and tps = 60. -/
theorem tpmWindow_counterexample :
    summaryTpm 60 2000 = 1800 ∧ specSteadyTpm 60 2000 1000 = 3600 ∧
    summaryTpm 60 2000 ≠ specSteadyTpm 60 2000 1000 ∧
    summaryTps 60 2000 = 30 ∧ specSteadyTps 60 2000 1000 = 60 ∧
    summaryTps 60 2000 ≠ specSteadyTps 60 2000 1000 := by
  norm_num [summaryTpm, summaryTps, specSteadyTpm, specSteadyTps]

/-- C4 amended: the printed tpm and tps divide `n_commits` by the WHOLE run
duration in truncated seconds (`total_time_ms`, which includes the ramp-up
stage), not by the steady-state window.  The two computations agree exactly
when the ramp-up time is zero, and with at least one second of steady state
the printed values can only understate the steady-state ones. -/
theorem tpmWindow_amended (nCommits totalTimeMs rampupTimeMs : Nat) :
    (rampupTimeMs = 0 →
      summaryTpm nCommits totalTimeMs = specSteadyTpm nCommits totalTimeMs rampupTimeMs ∧
      summaryTps nCommits totalTimeMs = specSteadyTps nCommits totalTimeMs rampupTimeMs) ∧
    (rampupTimeMs + 1000 ≤ totalTimeMs →
      summaryTpm nCommits totalTimeMs ≤ specSteadyTpm nCommits totalTimeMs rampupTimeMs ∧
      summaryTps nCommits totalTimeMs ≤ specSteadyTps nCommits totalTimeMs rampupTimeMs) := by
  constructor
  · rintro rfl
    exact ⟨by simp [summaryTpm, specSteadyTpm], by simp [summaryTps, specSteadyTps]⟩
  · intro hr
    have ha : 1 ≤ (totalTimeMs - rampupTimeMs) / 1000 := by omega
    have hab : (totalTimeMs - rampupTimeMs) / 1000 ≤ totalTimeMs / 1000 :=
      Nat.div_le_div_right (Nat.sub_le _ _)
    have ha2 : (0 : ℚ) < (((totalTimeMs - rampupTimeMs) / 1000 : Nat) : ℚ) := by
      exact_mod_cast Nat.lt_of_lt_of_le Nat.zero_lt_one ha
    have hab2 : (((totalTimeMs - rampupTimeMs) / 1000 : Nat) : ℚ) ≤
        ((totalTimeMs / 1000 : Nat) : ℚ) := by exact_mod_cast hab
    have hdiv : (nCommits : ℚ) / ((totalTimeMs / 1000 : Nat) : ℚ) ≤
        (nCommits : ℚ) / (((totalTimeMs - rampupTimeMs) / 1000 : Nat) : ℚ) :=
      div_le_div_of_nonneg_left (Nat.cast_nonneg nCommits) ha2 hab2
    exact ⟨mul_le_mul_of_nonneg_right hdiv (by norm_num), hdiv⟩

/-- Witness for `tpmWindow_amended` at concrete run durations. -/
theorem tpmWindow_amended_witness :
    ((0 : Nat) = 0 ∧ summaryTpm 60 2000 = specSteadyTpm 60 2000 0) ∧
    (1000 + 1000 ≤ 2000 ∧ summaryTps 60 2000 ≤ specSteadyTps 60 2000 1000) :=
  ⟨⟨rfl, ((tpmWindow_amended 60 2000 0).1 rfl).1⟩,
   ⟨by norm_num, ((tpmWindow_amended 60 2000 1000).2 (by norm_num)).2⟩⟩

/-! ### src/executor/tpcc.rs, `populate_orders` / `populate_order_line` (C5)

Both loaders iterate 30000 rows per warehouse with their own
`(orders_id, district_id)` state, rolling over to the next district after
`n_orders_per_district = 3000` orders.  The COPY batching (batches of 500
rows for orders, 50 orders for order_line) only splits the writes and never
touches the id state, so the row sequences are modelled as flat lists.
-/

/-- The `o_ol_cnt` / `ol_cnt` formula shared by `populate_orders` (tpcc.rs
line 1265) and `populate_order_line` (line 1506):
`(orders_id * (orders_id + district_id + warehouse_id)) % 11 + 5` in `u32`
arithmetic; the intermediate wrap-arounds compose into one reduction modulo
`2 ^ 32` before the `% 11`. -/
def oOlCnt (warehouseId districtId ordersId : Nat) : Nat :=
  ordersId * (ordersId + districtId + warehouseId) % 2 ^ 32 % 11 + 5

/-- One row of the deterministic skeleton of `populate_orders` (tpcc.rs
lines 1228-1291); the randomly drawn columns (carrier id, entry date) are
abstracted away. -/
structure OrdersRow where
  orders_id : Nat
  district_id : Nat
  customer_id : Nat
  o_ol_cnt : Nat
deriving DecidableEq

/-- The row loop of `populate_orders`: `fuel` rows remain; after each row
`orders_id` and `customer_id` are incremented, and on passing 3000 orders
the district advances and both reset to 1. -/
def populateOrdersAux (warehouseId : Nat) : Nat → Nat → Nat → Nat → List OrdersRow
  | 0, _, _, _ => []
  | fuel + 1, ordersId, customerId, districtId =>
      ⟨ordersId, districtId, customerId, oOlCnt warehouseId districtId ordersId⟩ ::
        (if ordersId + 1 > 3000 then
          populateOrdersAux warehouseId fuel 1 1 (districtId + 1)
        else
          populateOrdersAux warehouseId fuel (ordersId + 1) (customerId + 1) districtId)

/-- All 30000 rows generated by `populate_orders` for one warehouse. -/
def populateOrdersRows (warehouseId : Nat) : List OrdersRow :=
  populateOrdersAux warehouseId 30000 1 1 1

/-- One order's worth of the deterministic skeleton of `populate_order_line`
(tpcc.rs lines 1473-1553): the order's ids and its `ol_number` values
`1..=ol_cnt`, one generated line per value; random item ids, amounts and
dist-info strings are abstracted away. -/
structure OrderLineGroup where
  orders_id : Nat
  district_id : Nat
  lineNumbers : List Nat
deriving DecidableEq

/-- The order loop of `populate_order_line`, iterating its own independent
`(orders_id, district_id)` state with the same 3000-per-district rollover. -/
def populateOrderLineAux (warehouseId : Nat) : Nat → Nat → Nat → List OrderLineGroup
  | 0, _, _ => []
  | fuel + 1, ordersId, districtId =>
      ⟨ordersId, districtId, List.range' 1 (oOlCnt warehouseId districtId ordersId)⟩ ::
        (if ordersId + 1 > 3000 then
          populateOrderLineAux warehouseId fuel 1 (districtId + 1)
        else
          populateOrderLineAux warehouseId fuel (ordersId + 1) districtId)

/-- All 30000 orders' order_line groups generated for one warehouse. -/
def populateOrderLineGroups (warehouseId : Nat) : List OrderLineGroup :=
  populateOrderLineAux warehouseId 30000 1 1

theorem populateAux_agree (w : Nat) : ∀ fuel o c d : Nat,
    (populateOrdersAux w fuel o c d).map
      (fun r => (r.orders_id, r.district_id, r.o_ol_cnt)) =
    (populateOrderLineAux w fuel o d).map
      (fun g => (g.orders_id, g.district_id, g.lineNumbers.length)) := by
  intro fuel
  induction fuel with
  | zero => intro o c d; rfl
  | succ n ih =>
      intro o c d
      by_cases hroll : o + 1 > 3000 <;>
        simp [populateOrdersAux, populateOrderLineAux, hroll, ih, List.length_range']

theorem populateOrdersAux_cnt (w : Nat) : ∀ fuel o c d : Nat,
    ∀ r ∈ populateOrdersAux w fuel o c d, r.o_ol_cnt = oOlCnt w r.district_id r.orders_id := by
  intro fuel
  induction fuel with
  | zero => intro o c d r hr; simp [populateOrdersAux] at hr
  | succ n ih =>
      intro o c d r hr
      simp only [populateOrdersAux, List.mem_cons] at hr
      rcases hr with rfl | hr
      · rfl
      · by_cases hroll : o + 1 > 3000
        · rw [if_pos hroll] at hr
          exact ih 1 1 (d + 1) r hr
        · rw [if_neg hroll] at hr
          exact ih (o + 1) (c + 1) d r hr

theorem populateOrdersAux_bounds (w : Nat) : ∀ fuel o c d : Nat,
    1 ≤ o → o ≤ 3000 → 1 ≤ d → d ≤ 10 → fuel ≤ (3000 - o + 1) + 3000 * (10 - d) →
    ∀ r ∈ populateOrdersAux w fuel o c d,
      1 ≤ r.orders_id ∧ r.orders_id ≤ 3000 ∧ 1 ≤ r.district_id ∧ r.district_id ≤ 10 := by
  intro fuel
  induction fuel with
  | zero => intro o c d _ _ _ _ _ r hr; simp [populateOrdersAux] at hr
  | succ n ih =>
      intro o c d h1 h2 h3 h4 hcap r hr
      simp only [populateOrdersAux, List.mem_cons] at hr
      rcases hr with rfl | hr
      · exact ⟨h1, h2, h3, h4⟩
      · by_cases hroll : o + 1 > 3000
        · rw [if_pos hroll] at hr
          rcases Nat.eq_zero_or_pos n with rfl | hn
          · simp [populateOrdersAux] at hr
          · exact ih 1 1 (d + 1) (by omega) (by omega) (by omega) (by omega) (by omega) r hr
        · rw [if_neg hroll] at hr
          exact ih (o + 1) (c + 1) d (by omega) (by omega) h3 h4 (by omega) r hr

/-- C5: for every warehouse id, `populate_orders` and `populate_order_line`
agree order by order — the sequences of `(orders_id, district_id)` states
they visit coincide, and for each order the number of order_line rows
generated equals the `o_ol_cnt` value written by `populate_orders`.  Every
row's `o_ol_cnt` equals the shared formula in `u32` arithmetic, and (since
every visited `orders_id` is at most 3000 and `district_id` at most 10) the
`u32` wrap-around is invisible whenever the warehouse id is at most 1428000,
so the plain formula `(orders_id * (orders_id + district_id + warehouse_id))
% 11 + 5` of the claim holds there. -/
theorem orderLineCountAgreement (w : Nat) :
    ((populateOrdersRows w).map (fun r => (r.orders_id, r.district_id, r.o_ol_cnt)) =
      (populateOrderLineGroups w).map
        (fun g => (g.orders_id, g.district_id, g.lineNumbers.length))) ∧
    (∀ r ∈ populateOrdersRows w,
      r.o_ol_cnt = r.orders_id * (r.orders_id + r.district_id + w) % 2 ^ 32 % 11 + 5) ∧
    (w ≤ 1428000 → ∀ r ∈ populateOrdersRows w,
      r.o_ol_cnt = r.orders_id * (r.orders_id + r.district_id + w) % 11 + 5) := by
  have hcnt : ∀ r ∈ populateOrdersRows w,
      r.o_ol_cnt = r.orders_id * (r.orders_id + r.district_id + w) % 2 ^ 32 % 11 + 5 :=
    fun r hr => populateOrdersAux_cnt w 30000 1 1 1 r hr
  refine ⟨populateAux_agree w 30000 1 1 1, hcnt, fun hw r hr => ?_⟩
  have hb := populateOrdersAux_bounds w 30000 1 1 1 (by omega) (by omega) (by omega)
    (by omega) (by omega) r hr
  have hlt : r.orders_id * (r.orders_id + r.district_id + w) < 2 ^ 32 := by
    calc r.orders_id * (r.orders_id + r.district_id + w)
        ≤ 3000 * (3000 + 10 + 1428000) := Nat.mul_le_mul hb.2.1 (by omega)
      _ < 2 ^ 32 := by norm_num
  rw [hcnt r hr, Nat.mod_eq_of_lt hlt]

/-- Witness for `orderLineCountAgreement` at warehouse 1 and the first
generated row. -/
theorem orderLineCountAgreement_witness :
    (1 : Nat) ≤ 1428000 ∧
    (⟨1, 1, 1, oOlCnt 1 1 1⟩ : OrdersRow) ∈ populateOrdersRows 1 ∧
    (⟨1, 1, 1, oOlCnt 1 1 1⟩ : OrdersRow).o_ol_cnt = 1 * (1 + 1 + 1) % 11 + 5 := by
  have hstep : populateOrdersRows 1 =
      (⟨1, 1, 1, oOlCnt 1 1 1⟩ : OrdersRow) :: populateOrdersAux 1 29999 2 2 1 := by
    rw [populateOrdersRows, show (30000 : Nat) = 29999 + 1 from rfl, populateOrdersAux]
    norm_num
  have hmem : (⟨1, 1, 1, oOlCnt 1 1 1⟩ : OrdersRow) ∈ populateOrdersRows 1 := by
    rw [hstep]; exact List.mem_cons_self _ _
  exact ⟨by norm_num, hmem, (orderLineCountAgreement 1).2.2 (by norm_num) _ hmem⟩

/-! ### src/main.rs, the `init` action (C6) -/

/-- The work items an `init` run can perform.  `checkpointDb` stands for
`Executor::checkpoint` (executor.rs lines 614-631), which issues a single
`CHECKPOINT` statement. -/
inductive InitStep where
  | initializeSchema
  | preLoadItem
  | loadWarehouses
  | addPrimaryKeys
  | addForeignKeys
  | addIndexes
  | vacuumTables
  | checkpointDb
deriving DecidableEq

/-- The steps performed by `Executor::load_data` (executor.rs lines
397-475): the item pre-load, then the per-warehouse parallel load. -/
def executorLoadDataSteps : List InitStep :=
  [InitStep.preLoadItem, InitStep.loadWarehouses]

/-- The `init` orchestration of main.rs lines 15-23:
`init_db_schema().load_data(..).add_primary_keys(..).add_foreign_keys(..)`
`.add_indexes(..).vacuum(..)` — `Executor::checkpoint` is never invoked. -/
def mainInitSteps : List InitStep :=
  [InitStep.initializeSchema] ++ executorLoadDataSteps ++
    [InitStep.addPrimaryKeys, InitStep.addForeignKeys, InitStep.addIndexes,
     InitStep.vacuumTables]

/-- C6 counterexample: the `init` command chain of main.rs issues no
CHECKPOINT at all, refuting "finally issues exactly one CHECKPOINT
statement before exiting". -/
theorem initCheckpoint_counterexample :
    mainInitSteps.count InitStep.checkpointDb = 0 := by decide

/-- C6 amended: the init command performs, in this order: schema
initialization, item pre-load, parallel data load, primary-key creation,
foreign-key creation, index creation and finally vacuum; no CHECKPOINT
statement is ever issued (the implemented `Executor::checkpoint` is dead
code in this tree, and no suppression flag reaches the foreign-key step
from main). -/
theorem initSteps_amended :
    mainInitSteps = [InitStep.initializeSchema, InitStep.preLoadItem,
      InitStep.loadWarehouses, InitStep.addPrimaryKeys, InitStep.addForeignKeys,
      InitStep.addIndexes, InitStep.vacuumTables] ∧
    InitStep.checkpointDb ∉ mainInitSteps := by
  decide

/-! ### src/args.rs run-tpcc options and src/executor.rs max-id resolution (C7) -/

/-- A clap option as configured in args.rs: its `Arg::new` name, its
`--long` flag and its `default_value`. -/
structure CliOpt where
  name : String
  long : String
  defaultValue : String
deriving DecidableEq

/-- The options of the `run tpcc` subcommand (args.rs lines 160-215 and
239-246): client, time, rampup, scalefactor, start-id, end-id. -/
def runTpccOptions : List CliOpt :=
  [⟨"client", "client", "1"⟩, ⟨"time", "time", "1"⟩, ⟨"rampup", "rampup", "0"⟩,
   ⟨"scalefactor", "scalefactor", "1"⟩, ⟨"start_id", "start-id", "1"⟩,
   ⟨"end_id", "end-id", "1"⟩]

/-- Mirror of the `match args.max_id` in `run_benchmark` (executor.rs lines
115-134): a configured value of 0 is replaced by the value fetched from the
database, anything else is used as given. -/
def resolveMaxId (argMaxId dbMaxId : Nat) : Nat :=
  match argMaxId with
  | 0 => dbMaxId
  | _ => argMaxId

/-- Modelled from the spec: `get_default_max_id` is declared in the
`Benchmark` trait (benchmark.rs line 88) and called by `run_benchmark`
(executor.rs line 122), but no implementation exists under src.  Per the
spec it returns `SELECT MAX(w_id) FROM warehouse`, modelled as the maximum
over the warehouse table's `w_id` column (0 for an empty table). -/
def getDefaultMaxId (warehouseWIds : List Nat) : Nat :=
  warehouseWIds.foldr max 0

/-- The successive phases of `run_benchmark` (executor.rs lines 78-187), in
program order. -/
inductive RunPhase where
  | createTargetDir
  | startDataCollector
  | resolveMaxIdFromDb
  | spawnClients
  | sendEndOfRampup
  | awaitClients
  | sendTerminate
  | collectCounters
deriving DecidableEq

/-- The order in which `run_benchmark` performs its phases. -/
def runBenchmarkPhases : List RunPhase :=
  [RunPhase.createTargetDir, RunPhase.startDataCollector, RunPhase.resolveMaxIdFromDb,
   RunPhase.spawnClients, RunPhase.sendEndOfRampup, RunPhase.awaitClients,
   RunPhase.sendTerminate, RunPhase.collectCounters]

/-- C7 counterexample: the `run tpcc` subcommand has no `--max-id` option at
all — its option list is client, time, rampup, scalefactor, start-id and
end-id — and the interval-end option `--end-id` defaults to "1", not "0". -/
theorem maxIdOption_counterexample :
    runTpccOptions.map CliOpt.long =
      ["client", "time", "rampup", "scalefactor", "start-id", "end-id"] ∧
    runTpccOptions.map CliOpt.defaultValue = ["1", "1", "0", "1", "1", "1"] := by
  decide

theorem getDefaultMaxId_le (l : List Nat) : ∀ x ∈ l, x ≤ getDefaultMaxId l := by
  induction l with
  | nil => intro x hx; simp at hx
  | cons y rest ih =>
      intro x hx
      rcases List.mem_cons.mp hx with rfl | hx
      · exact le_max_left _ _
      · exact Nat.le_trans (ih x hx) (le_max_right _ _)

/-- C7 amended: `run tpcc` exposes the warehouse-id interval as `--start-id`
and `--end-id`, both defaulting to "1" (there is no `--max-id` option);
in the engine, whenever the configured maximum id equals 0, `run_benchmark`
replaces it by the value fetched from the database — per the spec,
`SELECT MAX(w_id) FROM warehouse`, an upper bound of every warehouse id —
and this resolution happens before any client is spawned. -/
theorem maxIdResolution_amended :
    ((⟨"end_id", "end-id", "1"⟩ : CliOpt) ∈ runTpccOptions) ∧
    (∀ dbMaxId : Nat, resolveMaxId 0 dbMaxId = dbMaxId) ∧
    (∀ argMaxId dbMaxId : Nat, argMaxId ≠ 0 → resolveMaxId argMaxId dbMaxId = argMaxId) ∧
    (∀ (l : List Nat), ∀ x ∈ l, x ≤ getDefaultMaxId l) ∧
    (runBenchmarkPhases.take 4 = [RunPhase.createTargetDir, RunPhase.startDataCollector,
      RunPhase.resolveMaxIdFromDb, RunPhase.spawnClients]) := by
  refine ⟨by decide, fun _ => rfl, ?_, getDefaultMaxId_le, by decide⟩
  intro argMaxId dbMaxId h
  cases argMaxId with
  | zero => exact absurd rfl h
  | succ n => rfl

/-- Witness for `maxIdResolution_amended` at concrete ids. -/
theorem maxIdResolution_amended_witness :
    ((5 : Nat) ≠ 0 ∧ resolveMaxId 5 9 = 5) ∧
    ((3 : Nat) ∈ [2, 3] ∧ (3 : Nat) ≤ getDefaultMaxId [2, 3]) :=
  ⟨⟨by decide, maxIdResolution_amended.2.2.1 5 9 (by decide)⟩,
   ⟨by decide, maxIdResolution_amended.2.2.2.1 [2, 3] 3 (by decide)⟩⟩

/-! ### src/executor/tpcc.rs, `new_order` stock update (C8, C10) -/

/-- Two's-complement wrap of a mathematical integer into the signed 32-bit
range — Rust's release-mode `i32` overflow semantics. -/
def wrap32 (z : ℤ) : ℤ := (z + 2 ^ 31) % 2 ^ 32 - 2 ^ 31

/-- Mirror of the stock-quantity update in `new_order` (tpcc.rs lines
646-651): `if (s_quantity - ol_quantity) > 10 { s_quantity - ol_quantity }`
`else { s_quantity - ol_quantity + 91 }` in `i32` arithmetic. -/
def newStockQuantity (sQuantity olQuantity : ℤ) : ℤ :=
  if wrap32 (sQuantity - olQuantity) > 10 then wrap32 (sQuantity - olQuantity)
  else wrap32 (wrap32 (sQuantity - olQuantity) + 91)

/-- Mirror of the `s_remote_cnt` increment in `new_order` (tpcc.rs lines
652-655): `0.0`, set to `1.0` when the line's supply warehouse differs from
the transaction's warehouse (an `f32` holding 0 or 1, modelled exactly). -/
def sRemoteCntInc (olSupplyWId warehouseId : ℤ) : ℚ :=
  if olSupplyWId ≠ warehouseId then 1 else 0

/-- C8: for an in-range current stock quantity and a line quantity in
[1, 10] whose subtraction does not underflow `i32`, the written quantity is
exactly `cur - qty` when `cur - qty > 10` and `cur - qty + 91` otherwise,
with no wrap-around; and the remote counter is incremented by 1 exactly when
the supply warehouse differs from the transaction's warehouse, by 0
otherwise. -/
theorem stockUpdateRule (cur qty sw wid : ℤ)
    (hcur2 : cur < 2 ^ 31) (hq1 : 1 ≤ qty) (hq2 : qty ≤ 10)
    (hnu : -2 ^ 31 ≤ cur - qty) :
    newStockQuantity cur qty = (if cur - qty > 10 then cur - qty else cur - qty + 91) ∧
    (sRemoteCntInc sw wid = 1 ↔ sw ≠ wid) ∧
    (sRemoteCntInc sw wid = 0 ↔ sw = wid) := by
  have hw : wrap32 (cur - qty) = cur - qty := by
    unfold wrap32
    omega
  refine ⟨?_, ?_, ?_⟩
  · unfold newStockQuantity
    rw [hw]
    by_cases hgt : cur - qty > 10
    · simp [hgt]
    · have hw2 : wrap32 (cur - qty + 91) = cur - qty + 91 := by
        unfold wrap32
        omega
      simp [hgt, hw2]
  · unfold sRemoteCntInc
    by_cases h : sw = wid <;> simp [h]
  · unfold sRemoteCntInc
    by_cases h : sw = wid <;> simp [h]

/-- Witness for `stockUpdateRule` with current quantity 50, line quantity 5
and a cross-warehouse line. -/
theorem stockUpdateRule_witness :
    (newStockQuantity 50 5 = if (50 : ℤ) - 5 > 10 then 50 - 5 else 50 - 5 + 91) ∧
    (sRemoteCntInc 2 1 = 1 ↔ (2 : ℤ) ≠ 1) :=
  ⟨(stockUpdateRule 50 5 2 1 (by norm_num) (by norm_num) (by norm_num) (by norm_num)).1,
   (stockUpdateRule 50 5 2 1 (by norm_num) (by norm_num) (by norm_num) (by norm_num)).2.1⟩

theorem newStockQuantity_bounds (c q : ℤ) (h1 : 10 ≤ c) (h2 : c < 2 ^ 31)
    (hq1 : 1 ≤ q) (hq2 : q ≤ 10) :
    11 ≤ newStockQuantity c q ∧ (c ≤ 101 → newStockQuantity c q ≤ 101) := by
  have hw : wrap32 (c - q) = c - q := by
    unfold wrap32
    omega
  unfold newStockQuantity
  rw [hw]
  by_cases hgt : c - q > 10
  · rw [if_pos hgt]
    omega
  · have hw2 : wrap32 (c - q + 91) = c - q + 91 := by
      unfold wrap32
      omega
    rw [if_neg hgt, hw2]
    omega

/-- The `s_quantity` initialization range of `populate_stock` (tpcc.rs lines
1387-1388): `gen_range(10..=100)`. -/
def populateStockQuantityRange : Nat × Nat := (10, 100)

theorem stockQuantity_foldl (qs : List ℤ) : ∀ c : ℤ, 10 ≤ c → c ≤ 101 →
    (∀ q ∈ qs, 1 ≤ q ∧ q ≤ 10) →
    10 ≤ qs.foldl newStockQuantity c ∧ qs.foldl newStockQuantity c ≤ 101 ∧
      (qs ≠ [] → 11 ≤ qs.foldl newStockQuantity c) := by
  induction qs with
  | nil => intro c h1 h2 _; exact ⟨h1, h2, fun h => absurd rfl h⟩
  | cons q rest ih =>
      intro c h1 h2 hq
      have hqh := hq q (List.mem_cons_self _ _)
      have hb := newStockQuantity_bounds c q h1 (by omega) hqh.1 hqh.2
      have hstep2 : newStockQuantity c q ≤ 101 := hb.2 h2
      obtain ⟨r1, r2, r3⟩ := ih (newStockQuantity c q) (by omega) hstep2
        (fun p hp => hq p (List.mem_cons_of_mem _ hp))
      refine ⟨r1, r2, fun _ => ?_⟩
      cases rest with
      | nil => simpa using hb.1
      | cons p rest2 => exact r3 (by simp)

/-- C10: a single New-Order stock update from any current quantity of at
least 10 (and representable in `i32`) with a line quantity in [1, 10] yields
a quantity of at least 11, and at most 101 whenever the current quantity is
at most 101; consequently, starting from the `populate_stock` range
[10, 100], any sequence of such updates keeps the quantity within [10, 101]
— within [11, 101] once at least one update ran — and never drives it to
zero or below. -/
theorem stockQuantityInvariant (cur : ℤ) (qs : List ℤ)
    (hlo : (populateStockQuantityRange.1 : ℤ) ≤ cur)
    (hhi : cur ≤ (populateStockQuantityRange.2 : ℤ))
    (hqs : ∀ q ∈ qs, 1 ≤ q ∧ q ≤ 10) :
    (∀ c q : ℤ, 10 ≤ c → c < 2 ^ 31 → 1 ≤ q → q ≤ 10 →
      11 ≤ newStockQuantity c q ∧ (c ≤ 101 → newStockQuantity c q ≤ 101)) ∧
    (10 ≤ qs.foldl newStockQuantity cur ∧ qs.foldl newStockQuantity cur ≤ 101 ∧
      0 < qs.foldl newStockQuantity cur ∧
      (qs ≠ [] → 11 ≤ qs.foldl newStockQuantity cur)) := by
  have hlo2 : (10 : ℤ) ≤ cur := by simpa [populateStockQuantityRange] using hlo
  have hhi2 : cur ≤ 100 := by simpa [populateStockQuantityRange] using hhi
  obtain ⟨r1, r2, r3⟩ := stockQuantity_foldl qs cur hlo2 (by omega) hqs
  exact ⟨fun c q hc1 hc2 hq1 hq2 => newStockQuantity_bounds c q hc1 hc2 hq1 hq2,
    r1, r2, by omega, r3⟩

/-- Witness for `stockQuantityInvariant` at initial quantity 50 and two
updates of 3 and 4 units. -/
theorem stockQuantityInvariant_witness :
    10 ≤ ([3, 4] : List ℤ).foldl newStockQuantity 50 ∧
    ([3, 4] : List ℤ).foldl newStockQuantity 50 ≤ 101 ∧
    0 < ([3, 4] : List ℤ).foldl newStockQuantity 50 ∧
    (([3, 4] : List ℤ) ≠ [] → 11 ≤ ([3, 4] : List ℤ).foldl newStockQuantity 50) :=
  (stockQuantityInvariant 50 [3, 4] (by norm_num [populateStockQuantityRange])
    (by norm_num [populateStockQuantityRange]) (by decide)).2

/-! ### src/executor/tpcc.rs, `payment` / `order_status` last-name draw (C9) -/

/-- The support of the `t` draw on Payment's 60% last-name path (tpcc.rs
lines 723-727): `gen_range(1..=1_000)`. -/
def paymentTSupport : Finset Nat := Finset.Icc 1 1000

/-- The support of the `t` draw on Order-Status's 60% last-name path
(tpcc.rs lines 847-851): `gen_range(1..=999)`. -/
def orderStatusTSupport : Finset Nat := Finset.Icc 1 999

/-- C9 counterexample: Order-Status draws `t` from [1, 999], not from
Payment's [1, 1000] — the value 1000 can be drawn by Payment but never by
Order-Status. -/
theorem orderStatusTDraw_counterexample :
    orderStatusTSupport ≠ paymentTSupport ∧
    1000 ∈ paymentTSupport ∧ 1000 ∉ orderStatusTSupport := by
  have h1 : (1000 : Nat) ∈ paymentTSupport := by
    simp [paymentTSupport]
  have h2 : (1000 : Nat) ∉ orderStatusTSupport := by
    simp [orderStatusTSupport]
  exact ⟨fun he => h2 (he ▸ h1), h1, h2⟩

/-- C9 amended: on its 60% last-name path Order-Status draws the syllable
parameter `t` uniformly from [1, 999] — a strict subset of Payment's
[1, 1000] missing exactly the value 1000. -/
theorem orderStatusTDraw_amended :
    orderStatusTSupport ⊆ paymentTSupport ∧
    paymentTSupport \ orderStatusTSupport = {1000} := by
  constructor
  · exact Finset.Icc_subset_Icc (le_refl 1) (by norm_num)
  · ext x
    simp only [paymentTSupport, orderStatusTSupport, Finset.mem_sdiff, Finset.mem_Icc,
      Finset.mem_singleton]
    omega

end PgMeter
